import Mathlib

/-!
Verification of the Basis-Tracker serverless handlers.

The repository contains three HTTP handlers that scrape commodity cash-bid
data, classify rows by commodity keyword, extract numeric fields by range
heuristics, deduplicate against a remote datastore keyed by
(date, commodity, elevator_name), and insert new records:

* a Google-Sheets CSV importer (`src/unnamed/part_000`),
* a headless-browser table scraper (first handler in `src/api/fetch-basis.js`),
* a multi-source regex-HTML scraper (second handler in `src/api/fetch-basis.js`).

This file gives a shallow embedding of the three pipelines.  External
effects (HTTP fetch, the futures-month regex, datastore insert failures)
are passed in as explicit environment records; everything else is
translated directly from the JavaScript source.  String primitives
(`includes`, `trim`, `split`, `toLowerCase`, `join`) are modelled on
character lists so that every definition evaluates by kernel reduction.
-/

/-- JS `hay.includes(sub)`: `sub` occurs as a contiguous substring of `hay`. -/
def jsIncludes (hay sub : String) : Bool :=
  decide (sub.toList <:+: hay.toList)

/-- JS `s.trim()`: drop whitespace from both ends. -/
def jsTrim (s : String) : String :=
  String.mk (((s.toList.dropWhile Char.isWhitespace).reverse.dropWhile
    Char.isWhitespace).reverse)

/-- JS `s.toLowerCase()` on the ASCII text these handlers see. -/
def jsToLower (s : String) : String :=
  String.mk (s.toList.map Char.toLower)

/-- JS `arr.join(' ')`. -/
def jsJoinSpace (row : List String) : String :=
  String.mk (List.flatten (List.intersperse [' '] (row.map String.toList)))

/-- JS `s.split(sep)` for a one-character separator. -/
def jsSplitChar (sep : Char) (s : String) : List String :=
  (s.toList.foldr
    (fun c acc =>
      match acc with
      | [] => [[c]]
      | cur :: rest => if c = sep then [] :: (cur :: rest) else (c :: cur) :: rest)
    [[]]).map String.mk

/-- Commodity classifier of the CSV and table handlers
(`part_000` lines 61-63, `fetch-basis.js` lines 94-99):
`corn` when the row text contains "corn" but not "popcorn", else `soybeans`
when it contains "soybean" or "soy bean", else no commodity. -/
def classifyCommodity (rowText : String) : Option String :=
  if jsIncludes rowText "corn" && !(jsIncludes rowText "popcorn") then some "corn"
  else if jsIncludes rowText "soybean" || jsIncludes rowText "soy bean" then some "soybeans"
  else none

/-- Commodity classifier of the agricharts `writeBidRow` source
(`fetch-basis.js` lines 296-298): two unconditional `if` statements, so a
"soybean" match overwrites a "corn" match. -/
def agriClassify (raw : String) : Option String :=
  let commodity : Option String := none
  let commodity := if jsIncludes raw "corn" then some "corn" else commodity
  let commodity := if jsIncludes raw "soybean" then some "soybeans" else commodity
  commodity

/-- Commodity classifier of the Tama-Benton `writeBidCell` source
(`fetch-basis.js` lines 342-344): futures-symbol prefix `ZC` is corn,
`ZS` is soybeans. -/
def tamaClassify (symbol : String) : Option String :=
  let commodity : Option String := none
  let commodity := if decide ("ZC".toList <+: symbol.toList) then some "corn" else commodity
  let commodity := if decide ("ZS".toList <+: symbol.toList) then some "soybeans" else commodity
  commodity

/-- JS `cell.replace(/[$,]/g, '')`: drop every dollar sign and comma. -/
def stripDollarComma (cell : String) : String :=
  String.mk (cell.toList.filter (fun c => !(c = '$' || c = ',')))

/-- JS `cell.replace(/[$,\s]/g, '')`: drop dollar signs, commas and whitespace. -/
def stripDollarCommaSpace (cell : String) : String :=
  String.mk (cell.toList.filter (fun c => !(c = '$' || c = ',' || c.isWhitespace)))

/-- Value of a digit string, as JS `Number` reads the integer or fraction part. -/
def digitsToNat (ds : List Char) : Nat :=
  ds.foldl (fun a c => 10 * a + (c.toNat - 48)) 0

/-- The numeric-token test and conversion of the handlers:
`/^-?\d+(\.\d{1,4})?$/.test(cell)` followed by `Number(cell)`, returning
`none` exactly when the regex rejects the cell. -/
def parseDecimal? (s : String) : Option ℚ :=
  let signed :=
    match s.toList with
    | '-' :: rest => (true, rest)
    | cs => (false, cs)
  let neg := signed.1
  let cs := signed.2
  let intDigits := cs.takeWhile Char.isDigit
  let rest := cs.dropWhile Char.isDigit
  if intDigits.isEmpty then none
  else
    let mag? : Option ℚ :=
      match rest with
      | [] => some (mkRat (digitsToNat intDigits) 1)
      | '.' :: frac =>
          if frac.all Char.isDigit ∧ 1 ≤ frac.length ∧ frac.length ≤ 4 then
            some (mkRat (digitsToNat intDigits * 10 ^ frac.length + digitsToNat frac)
              (10 ^ frac.length))
          else none
      | _ => none
    match mag? with
    | none => none
    | some q => some (if neg then -q else q)

/-- Numeric extraction of the CSV handler (`part_000` lines 67-70):
strip `$` and `,`, trim, keep cells matching the signed-decimal pattern,
convert to numbers. -/
def rowNumbers (row : List String) : List ℚ :=
  (row.map (fun cell => jsTrim (stripDollarComma cell))).filterMap parseDecimal?

/-- Numeric extraction of the browser handler (`fetch-basis.js` lines 103-106):
same, but the replacement also drops whitespace and there is no trim. -/
def rowNumbersB (row : List String) : List ℚ :=
  (row.map (fun cell => stripDollarCommaSpace cell)).filterMap parseDecimal?

/-- JS `Math.abs`. -/
def mathAbs (n : ℚ) : ℚ := if n < 0 then -n else n

/-- One iteration of the field-assignment loop
(`part_000` lines 79-82, `fetch-basis.js` lines 116-123). -/
def assignStep (p : Option ℚ × Option ℚ) (n : ℚ) : Option ℚ × Option ℚ :=
  let cashPrice := if 2 ≤ n ∧ n ≤ 20 ∧ p.1 = none then some n else p.1
  let basisValue :=
    if -200 ≤ n ∧ n ≤ 200 ∧ mkRat 1 2 < mathAbs n ∧ p.2 = none ∧ ¬(2 ≤ n ∧ n ≤ 20) then
      some n
    else p.2
  (cashPrice, basisValue)

/-- The field-assignment loop: scan the extracted numbers, starting with
`cashPrice = null` and `basisValue = null`. -/
def assignFields (numbers : List ℚ) : Option ℚ × Option ℚ :=
  numbers.foldl assignStep (none, none)

/-- The cash-price component of one loop iteration, in isolation. -/
def cashScan (a : Option ℚ) (n : ℚ) : Option ℚ :=
  if 2 ≤ n ∧ n ≤ 20 ∧ a = none then some n else a

/-- The basis-value component of one loop iteration, in isolation. -/
def basisScan (a : Option ℚ) (n : ℚ) : Option ℚ :=
  if -200 ≤ n ∧ n ≤ 200 ∧ mkRat 1 2 < mathAbs n ∧ a = none ∧ ¬(2 ≤ n ∧ n ≤ 20) then
    some n
  else a

/-- Field assignment as claim C1 words it: the first number in `[2, 20]`
becomes the cash price, and the first REMAINING number with `|n| > 0.5` and
in `[-200, 200]` that was not already claimed as cash price becomes the
basis value. -/
def claimAssignFields (numbers : List ℚ) : Option ℚ × Option ℚ :=
  let cash := numbers.find? (fun n => decide (2 ≤ n ∧ n ≤ 20))
  let remaining :=
    match numbers.findIdx? (fun n => decide (2 ≤ n ∧ n ≤ 20)) with
    | some i => numbers.eraseIdx i
    | none => numbers
  let basis := remaining.find? (fun n => decide (mkRat 1 2 < mathAbs n ∧ -200 ≤ n ∧ n ≤ 200))
  (cash, basis)

/-- One character of the quote-aware CSV cell splitter (`part_000` lines 36-43). -/
def csvCellStep (st : List String × String × Bool) (c : Char) :
    List String × String × Bool :=
  let cells := st.1
  let current := st.2.1
  let inQuotes := st.2.2
  if c = '"' then (cells, current, !inQuotes)
  else if c = ',' ∧ inQuotes = false then (cells ++ [jsTrim current], "", inQuotes)
  else (cells, current.push c, inQuotes)

/-- Split one CSV line into trimmed cells (`part_000` lines 35-45). -/
def splitCsvLine (line : String) : List String :=
  let folded := line.toList.foldl csvCellStep ([], "", false)
  folded.1 ++ [jsTrim folded.2.1]

/-- Parse the fetched CSV text into rows, keeping rows with a non-empty cell
(`part_000` lines 35-46). -/
def parseCsvRows (csvText : String) : List (List String) :=
  ((jsSplitChar '\n' csvText).map splitCsvLine).filter
    (fun row => row.any (fun cell => decide (0 < cell.length)))

/-- Decimal digits of a natural number, fuel-indexed so that it evaluates by
kernel reduction. -/
def natStrAux : Nat → Nat → String
  | 0, _ => ""
  | fuel + 1, n =>
      if n < 10 then String.mk [Char.ofNat (48 + n)]
      else natStrAux fuel (n / 10) ++ String.mk [Char.ofNat (48 + n % 10)]

/-- Decimal rendering of a natural number, as JS string interpolation
renders it. -/
def natStr (n : Nat) : String := natStrAux (n + 1) n

/-- Decimal rendering of an integer. -/
def intStr : Int → String
  | .ofNat n => natStr n
  | .negSucc n => "-" ++ natStr (n + 1)

/-- Rendering of a number interpolated into a log or error string.  The
handlers interpolate JS floats; integers render identically, and the exact
text of non-integer renderings is irrelevant to every claim. -/
def numStr (q : ℚ) : String :=
  if q.den = 1 then intStr q.num else intStr q.num ++ "/" ++ natStr q.den

/-- The basis-entry record shape shared by all handlers.  `saveEntry` in the
multi-source handler builds entries with no `cash_price` key, modelled here
as `cash_price = none`. -/
structure Entry where
  date : String
  commodity : String
  elevator_name : String
  basis_value : Option ℚ
  cash_price : Option ℚ
  futures_month : Option String
  notes : String
deriving DecidableEq, Repr

/-- The deduplication key used by every pre-insert existence query. -/
def entryKey (e : Entry) : String × String × String :=
  (e.date, e.commodity, e.elevator_name)

/-- Elevator name constant of the CSV and browser handlers. -/
def ELEVATOR_NAME : String := "Mid-Iowa Cooperative"

/-- The pre-insert existence query
(`.eq('date', today).eq('commodity', commodity).eq('elevator_name', name).limit(1)`
followed by `existing.length > 0`), with the datastore modelled as the list
of its rows. -/
def existsToday (db : List Entry) (today commodity name : String) : Bool :=
  db.any (fun e => e.date = today && e.commodity = commodity && e.elevator_name = name)

/-- JS template rendering of a possibly-null number. -/
def optQStr : Option ℚ → String
  | none => "null"
  | some q => numStr q

/-- External behaviour a row-processing loop depends on: the futures-month
regex match on the joined row text (an oracle here; no claim depends on it)
and the datastore insert outcome (`none` = inserted, `some msg` = error). -/
structure RowEnv where
  futuresMatch : String → Option String
  insertErr : Entry → Option String

/-- Mutable state of one handler run: the datastore rows, the records passed
to insert so far, and the `saved` / `skipped` / `errors` / `log` arrays. -/
structure RunState where
  db : List Entry
  inserted : List Entry
  saved : List Entry
  skipped : List (List String × String)
  parseErrors : List String
  log : List String
deriving DecidableEq, Repr

/-- Body of a handler's JSON response. -/
inductive RespBody
  | methodErr (error : String)
  | ok (message : String) (saved : List Entry) (skipped : List (List String × String))
      (errors : List String)
  | failure (error : String)
deriving DecidableEq, Repr

/-- Result of a handler invocation: HTTP status, body, the `log` array of the
body, and the datastore state, plus every record that was passed to the
insert operation. -/
structure HandlerResult where
  status : Nat
  body : RespBody
  log : List String
  db : List Entry
  inserted : List Entry
deriving Repr

/-- Outcome of one `fetch(...)` call. -/
inductive FetchResult
  | ok (text : String)
  | httpErr (status : Nat)
  | thrown (msg : String)
deriving Repr

/-- Loop body of the CSV handler (`part_000` lines 57-127): classify the row,
extract numbers, assign fields, skip when no basis value, dedup-check,
insert. -/
def csvProcessRow (env : RowEnv) (today : String) (st : RunState) (row : List String) :
    RunState :=
  let rowText := jsToLower (jsJoinSpace row)
  match classifyCommodity rowText with
  | none => st
  | some commodity =>
    let numbers := rowNumbers row
    if numbers.length < 1 then st
    else
      let fields := assignFields numbers
      let cashPrice := fields.1
      let futuresMonth := env.futuresMatch (jsJoinSpace row)
      match fields.2 with
      | none => { st with skipped := st.skipped ++ [(row, "Could not identify basis value")] }
      | some basisValue =>
        if existsToday st.db today commodity ELEVATOR_NAME then
          { st with skipped := st.skipped ++
              [(row, "Already saved for " ++ commodity ++ " on " ++ today)] }
        else
          let entry : Entry :=
            { date := today, commodity := commodity, elevator_name := ELEVATOR_NAME,
              basis_value := some basisValue, cash_price := cashPrice,
              futures_month := futuresMonth, notes := "Auto-imported from Google Sheet" }
          let st1 := { st with inserted := st.inserted ++ [entry] }
          match env.insertErr entry with
          | some msg => { st1 with parseErrors := st1.parseErrors ++ [msg] }
          | none =>
              { st1 with db := st1.db ++ [entry], saved := st1.saved ++ [entry],
                         log := st1.log ++ ["Saved: " ++ commodity ++ " | basis " ++
                           numStr basisValue ++ "¢ | cash $" ++ optQStr cashPrice] }

/-- The CSV handler's row loop. -/
def csvProcessRows (env : RowEnv) (today : String) (st : RunState)
    (rows : List (List String)) : RunState :=
  rows.foldl (csvProcessRow env today) st

/-- External behaviour the CSV handler depends on. -/
structure CsvEnv where
  fetch : FetchResult
  futuresMatch : String → Option String
  insertErr : Entry → Option String

/-- The Google-Sheets CSV handler (`part_000` lines 9-144). -/
def csvHandler (method today : String) (env : CsvEnv) (db0 : List Entry) : HandlerResult :=
  if method ≠ "GET" then
    { status := 405, body := .methodErr "Method not allowed", log := [],
      db := db0, inserted := [] }
  else
    let log := ["Fetching Google Sheets CSV..."]
    match env.fetch with
    | .thrown msg =>
        { status := 500, body := .failure msg, log := log ++ ["Fatal error: " ++ msg],
          db := db0, inserted := [] }
    | .httpErr s =>
        let msg := "Failed to fetch sheet: HTTP " ++ natStr s
        { status := 500, body := .failure msg, log := log ++ ["Fatal error: " ++ msg],
          db := db0, inserted := [] }
    | .ok csvText =>
        let log := log ++ ["CSV fetched successfully."]
        let rows := parseCsvRows csvText
        let log := log ++ ["Total rows in sheet: " ++ natStr rows.length,
          "First 8 rows: " ++ toString (rows.take 8)]
        let st0 : RunState :=
          { db := db0, inserted := [], saved := [], skipped := [],
            parseErrors := [], log := log }
        let st := csvProcessRows ⟨env.futuresMatch, env.insertErr⟩ today st0 rows
        { status := 200,
          body := .ok ("Saved " ++ natStr st.saved.length ++ " entries.")
            st.saved st.skipped st.parseErrors,
          log := st.log, db := st.db, inserted := st.inserted }

/-- Target URL of the browser handler. -/
def CASH_BIDS_URL : String :=
  "https://www.midiowacoop.com/grains/cash-bids/cash-bids-and-hours/"

/-- Data returned by `page.evaluate` (`fetch-basis.js` lines 59-78). -/
structure Extracted where
  tableData : List (List (List String))
  iframeSrcs : List String
  bodySnippet : String

/-- External behaviour the browser handler depends on: each await point of
the try block either succeeds or throws with a message. -/
structure BrowserEnv where
  launch : Except String Unit
  newPage : Except String Unit
  setUserAgent : Except String Unit
  goto : Except String Unit
  waitForSelector : Except String Unit
  evaluate : Except String Extracted
  futuresMatch : String → Option String
  insertErr : Entry → Option String

/-- Result of the browser handler, extended with whether the browser was
launched and whether it was closed before returning. -/
structure BrowserHandlerResult where
  status : Nat
  body : RespBody
  log : List String
  db : List Entry
  inserted : List Entry
  opened : Bool
  closed : Bool
deriving Repr

/-- Loop body of the browser handler (`fetch-basis.js` lines 90-167). -/
def browserProcessRow (env : RowEnv) (today : String) (st : RunState) (row : List String) :
    RunState :=
  let rowText := jsToLower (jsJoinSpace row)
  match classifyCommodity rowText with
  | none => st
  | some commodity =>
    let numbers := rowNumbersB row
    if numbers.length < 1 then st
    else
      let fields := assignFields numbers
      let futuresMonth := env.futuresMatch (jsJoinSpace row)
      match fields.2 with
      | none => { st with skipped := st.skipped ++ [(row, "Could not identify basis value")] }
      | some basisValue =>
        if existsToday st.db today commodity ELEVATOR_NAME then
          { st with skipped := st.skipped ++
              [(row, "Entry already exists for " ++ commodity ++ " on " ++ today)] }
        else
          let entry : Entry :=
            { date := today, commodity := commodity, elevator_name := ELEVATOR_NAME,
              basis_value := some basisValue, cash_price := fields.1,
              futures_month := futuresMonth, notes := "Auto-imported" }
          let st1 := { st with inserted := st.inserted ++ [entry] }
          match env.insertErr entry with
          | some msg => { st1 with parseErrors := st1.parseErrors ++ [msg] }
          | none =>
              { st1 with db := st1.db ++ [entry], saved := st1.saved ++ [entry],
                         log := st1.log ++ ["Saved: " ++ commodity ++ " basis " ++
                           numStr basisValue ++ "¢"] }

/-- The browser handler's nested table/row loop (`fetch-basis.js` lines 89-168). -/
def browserProcessTables (env : RowEnv) (today : String) (st : RunState)
    (tables : List (List (List String))) : RunState :=
  tables.foldl (fun st table => table.foldl (browserProcessRow env today) st) st

/-- The catch block of the browser handler (`fetch-basis.js` lines 187-192):
close the browser when one was opened, push the fatal-error log line, and
return a 500 response. -/
def browserCatch (msg : String) (log : List String) (db : List Entry)
    (inserted : List Entry) (opened : Bool) : BrowserHandlerResult :=
  { status := 500, body := .failure msg, log := log ++ ["Fatal error: " ++ msg],
    db := db, inserted := inserted, opened := opened, closed := opened }

/-- The headless-browser handler (`fetch-basis.js` lines 10-193). -/
def browserHandler (method today : String) (env : BrowserEnv) (db0 : List Entry) :
    BrowserHandlerResult :=
  if method ≠ "GET" then
    { status := 405, body := .methodErr "Method not allowed", log := [],
      db := db0, inserted := [], opened := false, closed := false }
  else
    let log := ["Launching browser..."]
    match env.launch with
    | .error msg => browserCatch msg log db0 [] false
    | .ok _ =>
      match env.newPage with
      | .error msg => browserCatch msg log db0 [] true
      | .ok _ =>
        match env.setUserAgent with
        | .error msg => browserCatch msg log db0 [] true
        | .ok _ =>
          let log := log ++ ["Loading page: " ++ CASH_BIDS_URL]
          match env.goto with
          | .error msg => browserCatch msg log db0 [] true
          | .ok _ =>
            let log := log ++ ["Page loaded. Waiting for widget..."]
            let log :=
              match env.waitForSelector with
              | .ok _ => log ++ ["Table found."]
              | .error _ => log ++ ["No table found — will try other selectors."]
            match env.evaluate with
            | .error msg => browserCatch msg log db0 [] true
            | .ok extracted =>
              let log := log ++ ["Tables found: " ++ natStr extracted.tableData.length,
                "Iframes found: " ++ natStr extracted.iframeSrcs.length]
              let st0 : RunState :=
                { db := db0, inserted := [], saved := [], skipped := [],
                  parseErrors := [], log := log }
              let st := browserProcessTables ⟨env.futuresMatch, env.insertErr⟩ today st0
                extracted.tableData
              { status := 200,
                body := .ok ("Saved " ++ natStr st.saved.length ++ " entries.")
                  st.saved st.skipped st.parseErrors,
                log := st.log, db := st.db, inserted := st.inserted,
                opened := true, closed := true }

/-- The first exception raised inside the browser handler's try block, if
any: the await points throw in program order, and a `waitForSelector`
failure is caught by the inner try and is not fatal. -/
def firstThrow (env : BrowserEnv) : Option String :=
  match env.launch with
  | .error m => some m
  | .ok _ =>
    match env.newPage with
    | .error m => some m
    | .ok _ =>
      match env.setUserAgent with
      | .error m => some m
      | .ok _ =>
        match env.goto with
        | .error m => some m
        | .ok _ =>
          match env.evaluate with
          | .error m => some m
          | .ok _ => none

/-- A per-source location entry (`fetch-basis.js` lines 202-221). -/
structure Loc where
  name : String
  id : Nat
  commodities : List String
deriving DecidableEq, Repr

/-- The agricharts location table (`fetch-basis.js` lines 202-211). -/
def AGRICHARTS_LOCATIONS : List Loc :=
  [⟨"ADM Cedar Rapids", 66521, ["corn"]⟩,
   ⟨"Cargill Cedar Rapids (Corn Mill)", 26279, ["corn"]⟩,
   ⟨"Cargill Cedar Rapids", 75163, ["soybeans"]⟩,
   ⟨"Shell Rock Soy", 82509, ["soybeans"]⟩,
   ⟨"La Porte City", 64477, ["corn"]⟩,
   ⟨"Pine Lake Corn Processors", 75160, ["corn"]⟩,
   ⟨"POET Fairbank", 79809, ["corn"]⟩,
   ⟨"Sinclair (Mid-Iowa)", 81965, ["corn"]⟩]

/-- The Tama-Benton location table (`fetch-basis.js` lines 219-221). -/
def TAMABENTON_LOCATIONS : List Loc :=
  [⟨"Vinton (Tama-Benton)", 3076, ["corn"]⟩]

/-- External behaviour the multi-source handler depends on: one fetch
outcome per agricharts location, the Tama-Benton fetch outcome, the two
site-specific regex extractions applied to the fetched HTML (oracles here:
`parseBidRows` yields `writeBidRow` captures (commodity text, basis,
delivery month), `parseBidCells` yields `writeBidCell` captures (basis,
location id, futures symbol)), and the datastore insert outcome. -/
structure MultiEnv where
  fetchAgri : Nat → FetchResult
  fetchTama : FetchResult
  parseBidRows : String → List (String × ℚ × String)
  parseBidCells : String → List (ℚ × Nat × String)
  insertErr : Entry → Option String

/-- Mutable state of the multi-source handler run. -/
structure MultiState where
  db : List Entry
  inserted : List Entry
  saved : List Entry
  skipped : List String
  errors : List String
  log : List String
deriving Repr

/-- `saveEntry` (`fetch-basis.js` lines 243-273): dedup-check on
`(date, commodity, name)`, then insert; the entry has no `cash_price` key
and its `futures_month` is `futuresMonth || null`. -/
def saveEntry (env : MultiEnv) (today : String) (st : MultiState)
    (name commodity : String) (basisValue : ℚ) (futuresMonth : String) : MultiState :=
  if existsToday st.db today commodity name then
    { st with skipped := st.skipped ++
        [name ++ " " ++ commodity ++ " already saved for " ++ today] }
  else
    let entry : Entry :=
      { date := today, commodity := commodity, elevator_name := name,
        basis_value := some basisValue, cash_price := none,
        futures_month := if futuresMonth = "" then none else some futuresMonth,
        notes := "Auto-imported" }
    let st1 := { st with inserted := st.inserted ++ [entry] }
    match env.insertErr entry with
    | some msg =>
        { st1 with errors := st1.errors ++ [name ++ " " ++ commodity ++ ": " ++ msg] }
    | none =>
        { st1 with db := st1.db ++ [entry], saved := st1.saved ++ [entry],
                   log := st1.log ++ ["  ✓ " ++ name ++ " | " ++ commodity ++ " | " ++
                     numStr basisValue ++ "¢ (" ++
                     (if futuresMonth = "" then "—" else futuresMonth) ++ ")"] }

/-- The `while` loop over `writeBidRow` matches (`fetch-basis.js` lines
291-301): classify, filter by the location's commodity list, keep only the
first bid per commodity. -/
def collectAgriBids (loc : Loc) (ms : List (String × ℚ × String)) :
    List (String × ℚ × String) :=
  ms.foldl
    (fun bids m =>
      match agriClassify (jsToLower m.1) with
      | none => bids
      | some commodity =>
        if loc.commodities.contains commodity then
          if bids.any (fun b => b.1 = commodity) then bids
          else bids ++ [(commodity, m.2.1, jsTrim m.2.2)]
        else bids)
    []

/-- One agricharts location (`fetch-basis.js` lines 279-312): log the
fetch, record an errors entry on a non-2xx response or a thrown fetch,
otherwise parse and save the collected bids. -/
def processAgriLoc (env : MultiEnv) (today : String) (st : MultiState) (loc : Loc) :
    MultiState :=
  let st := { st with log := st.log ++ ["Fetching " ++ loc.name ++ "..."] }
  match env.fetchAgri loc.id with
  | .httpErr s => { st with errors := st.errors ++ [loc.name ++ ": HTTP " ++ natStr s] }
  | .thrown msg => { st with errors := st.errors ++ [loc.name ++ ": " ++ msg] }
  | .ok html =>
    let bids := collectAgriBids loc (env.parseBidRows html)
    let st := bids.foldl (fun st b => saveEntry env today st loc.name b.1 b.2.1 b.2.2) st
    if bids.isEmpty then { st with log := st.log ++ ["  ⚠ No matching bids found"] }
    else st

/-- The `while` loop over `writeBidCell` matches (`fetch-basis.js` lines
332-350): locate, classify by futures-symbol prefix, filter by the
location's commodity list, keep only the first bid per
(location id, commodity) key. -/
def collectTamaBids (ms : List (ℚ × Nat × String)) :
    List ((Nat × String) × Loc × ℚ × String) :=
  ms.foldl
    (fun bids m =>
      match TAMABENTON_LOCATIONS.find? (fun l => l.id == m.2.1) with
      | none => bids
      | some loc =>
        match tamaClassify m.2.2 with
        | none => bids
        | some commodity =>
          if loc.commodities.contains commodity then
            if bids.any (fun b => b.1 = (m.2.1, commodity)) then bids
            else bids ++ [((m.2.1, commodity), loc, m.1, m.2.2)]
          else bids)
    []

/-- The Tama-Benton source (`fetch-basis.js` lines 319-360). -/
def processTama (env : MultiEnv) (today : String) (st : MultiState) : MultiState :=
  let st := { st with log := st.log ++ ["Fetching Tama-Benton (Vinton)..."] }
  match env.fetchTama with
  | .httpErr s => { st with errors := st.errors ++ ["Tama-Benton: HTTP " ++ natStr s] }
  | .thrown msg => { st with errors := st.errors ++ ["Tama-Benton: " ++ msg] }
  | .ok html =>
    let bids := collectTamaBids (env.parseBidCells html)
    let st := bids.foldl
      (fun st b => saveEntry env today st b.2.1.name b.1.2 b.2.2.1 b.2.2.2) st
    if bids.isEmpty then
      { st with log := st.log ++ ["  ⚠ No matching Tama-Benton bids found"] }
    else st

/-- Result of the multi-source handler: HTTP status, the 405 body's error
field when set, and the fields of the 200 body, plus the datastore state
and every record passed to insert. -/
structure MultiResult where
  status : Nat
  bodyError : Option String
  message : Option String
  log : List String
  saved : List Entry
  skipped : List String
  errors : List String
  db : List Entry
  inserted : List Entry
deriving Repr

/-- The `expected` count of the summary message (`fetch-basis.js` lines
363-364). -/
def expectedCount : Nat :=
  AGRICHARTS_LOCATIONS.foldl (fun n l => n + l.commodities.length) 0 +
    TAMABENTON_LOCATIONS.foldl (fun n l => n + l.commodities.length) 0

/-- The multi-source regex-HTML handler (`fetch-basis.js` lines 226-374):
process every agricharts location, then the Tama-Benton source, and always
return status 200 with the accumulated arrays. -/
def multiHandler (method today : String) (env : MultiEnv) (db0 : List Entry) :
    MultiResult :=
  if method ≠ "GET" then
    { status := 405, bodyError := some "Method not allowed", message := none, log := [],
      saved := [], skipped := [], errors := [], db := db0, inserted := [] }
  else
    let st0 : MultiState :=
      { db := db0, inserted := [], saved := [], skipped := [], errors := [], log := [] }
    let st := AGRICHARTS_LOCATIONS.foldl (processAgriLoc env today) st0
    let st := processTama env today st
    { status := 200, bodyError := none,
      message := some ("Saved " ++ natStr st.saved.length ++ " of " ++
        natStr expectedCount ++ " expected entries."),
      log := st.log, saved := st.saved, skipped := st.skipped, errors := st.errors,
      db := st.db, inserted := st.inserted }

/-- JS `s.startsWith(pre)`. -/
def jsStartsWith (s pre : String) : Bool :=
  decide (pre.toList <+: s.toList)

/-- The datastore holds at most one row per (date, commodity, elevator_name)
key. -/
def DedupKeys (db : List Entry) : Prop :=
  List.Pairwise (fun a b => entryKey a ≠ entryKey b) db

/-- The invariant of claim C10 for a record passed to the insert operation:
non-null basis value, the handler's `today` as date, commodity corn or
soybeans, and notes beginning with "Auto-imported". -/
def GoodInsert (today : String) (e : Entry) : Prop :=
  e.basis_value ≠ none ∧ e.date = today ∧
    (e.commodity = "corn" ∨ e.commodity = "soybeans") ∧
    jsStartsWith e.notes "Auto-imported" = true

/-- A concrete row-processing environment for witnesses. -/
def trivialRowEnv : RowEnv :=
  { futuresMatch := fun _ => none, insertErr := fun _ => none }

/-- A concrete CSV-handler environment for witnesses. -/
def trivialCsvEnv : CsvEnv :=
  { fetch := .ok "Corn,,4.05,,-35,,", futuresMatch := fun _ => none,
    insertErr := fun _ => none }

/-- A concrete browser-handler environment whose page load throws. -/
def failingBrowserEnv : BrowserEnv :=
  { launch := .ok (), newPage := .ok (), setUserAgent := .ok (),
    goto := .error "Navigation timeout", waitForSelector := .ok (),
    evaluate := .ok ⟨[], [], ""⟩, futuresMatch := fun _ => none,
    insertErr := fun _ => none }

/-- A concrete multi-source environment where every fetch returns a non-2xx
status. -/
def failingMultiEnv : MultiEnv :=
  { fetchAgri := fun _ => .httpErr 403, fetchTama := .httpErr 500,
    parseBidRows := fun _ => [], parseBidCells := fun _ => [],
    insertErr := fun _ => none }

/-- A concrete multi-source environment that yields one corn bid per source. -/
def sampleMultiEnv : MultiEnv :=
  { fetchAgri := fun _ => .ok "", fetchTama := .ok "",
    parseBidRows := fun _ => [("Corn", -30, "May 2025")],
    parseBidCells := fun _ => [(-20, 3076, "ZCH26")],
    insertErr := fun _ => none }

/-- The empty run state used for concrete evaluations. -/
def initialRunState : RunState :=
  { db := [], inserted := [], saved := [], skipped := [], parseErrors := [], log := [] }

/-- The record `sampleMultiEnv` makes the multi-source handler insert for
the first agricharts location. -/
def entrySample : Entry :=
  { date := "2026-10-12", commodity := "corn", elevator_name := "ADM Cedar Rapids",
    basis_value := some (-30), cash_price := none, futures_month := some "May 2025",
    notes := "Auto-imported" }

/-! ## Theorems -/

theorem assignStep_eq_scans (c b : Option ℚ) (n : ℚ) :
    assignStep (c, b) n = (cashScan c n, basisScan b n) := rfl

theorem foldl_assignStep_pair (l : List ℚ) (c b : Option ℚ) :
    l.foldl assignStep (c, b) = (l.foldl cashScan c, l.foldl basisScan b) := by
  induction l generalizing c b with
  | nil => rfl
  | cons n t ih =>
      simp only [List.foldl_cons, assignStep_eq_scans]
      exact ih _ _

theorem foldl_cashScan_some (l : List ℚ) (x : ℚ) :
    l.foldl cashScan (some x) = some x := by
  induction l with
  | nil => rfl
  | cons n t ih => simpa [cashScan] using ih

theorem foldl_basisScan_some (l : List ℚ) (x : ℚ) :
    l.foldl basisScan (some x) = some x := by
  induction l with
  | nil => rfl
  | cons n t ih => simpa [basisScan] using ih

theorem foldl_cashScan_none (l : List ℚ) :
    l.foldl cashScan none = l.find? (fun n => decide (2 ≤ n ∧ n ≤ 20)) := by
  induction l with
  | nil => rfl
  | cons n t ih =>
      by_cases h : 2 ≤ n ∧ n ≤ 20
      · rw [List.foldl_cons, show cashScan none n = some n by simp [cashScan, h],
          foldl_cashScan_some, List.find?_cons_of_pos _ (by simpa using h)]
      · rw [List.foldl_cons, show cashScan none n = none by simp [cashScan, h],
          ih, List.find?_cons_of_neg _ (by simpa using h)]

theorem foldl_basisScan_none (l : List ℚ) :
    l.foldl basisScan none =
      l.find? (fun n =>
        decide (-200 ≤ n ∧ n ≤ 200 ∧ mkRat 1 2 < mathAbs n ∧ ¬(2 ≤ n ∧ n ≤ 20))) := by
  induction l with
  | nil => rfl
  | cons n t ih =>
      by_cases h : -200 ≤ n ∧ n ≤ 200 ∧ mkRat 1 2 < mathAbs n ∧ ¬(2 ≤ n ∧ n ≤ 20)
      · rw [List.foldl_cons, show basisScan none n = some n by
            refine if_pos ?_
            tauto,
          foldl_basisScan_some, List.find?_cons_of_pos _ (by
            simp only [decide_eq_true_eq]
            exact h)]
      · rw [List.foldl_cons, show basisScan none n = none by
            refine if_neg ?_
            tauto,
          ih, List.find?_cons_of_neg _ (by
            simp only [decide_eq_true_eq]
            exact h)]

/-- C1 (amended): in the field-assignment loop the cash price is the first
number in `[2, 20]`, and the basis value is the first number in
`[-200, 200]` with `|n| > 0.5` that is not itself in the cash-price range
`[2, 20]`; in particular a number in `[2, 20]` is never assigned as basis
value, even when the cash-price slot is already taken by an earlier
number. -/
theorem assignFields_spec (numbers : List ℚ) :
    assignFields numbers =
      (numbers.find? (fun n => decide (2 ≤ n ∧ n ≤ 20)),
       numbers.find? (fun n =>
         decide (-200 ≤ n ∧ n ≤ 200 ∧ mkRat 1 2 < mathAbs n ∧ ¬(2 ≤ n ∧ n ≤ 20)))) :=
  by
  rw [assignFields, foldl_assignStep_pair, foldl_cashScan_none, foldl_basisScan_none]

/-- C1 counterexample: on the numbers [3, 5] the claim's wording makes 5 the
basis value (5 is in [-200, 200], has absolute value above 0.5, and was not
claimed as cash price, 3 being the cash price), but the code assigns no
basis value at all, because 5 lies in the cash-price range. -/
theorem assignFields_claim_counterexample :
    claimAssignFields [3, 5] = (some 3, some 5) ∧
      assignFields [3, 5] = (some 3, none) ∧
      assignFields [3, 5] ≠ claimAssignFields [3, 5] := by decide

theorem corn_infix_of_popcorn {s : String} (hp : jsIncludes s "popcorn" = true) :
    jsIncludes s "corn" = true := by
  unfold jsIncludes at hp ⊢
  rw [decide_eq_true_eq] at hp ⊢
  have hcp : "corn".toList <:+: "popcorn".toList := by decide
  exact hcp.trans hp

/-- C4 counterexample: the row text "popcorn soybeans" contains "popcorn",
yet the classifier resolves it to soybeans, not to none. -/
theorem classify_popcorn_counterexample :
    jsIncludes "popcorn soybeans" "popcorn" = true ∧
      classifyCommodity "popcorn soybeans" = some "soybeans" := by decide

/-- C4 (amended): a row text containing "popcorn" never resolves to corn;
it resolves to soybeans when it also contains "soybean" or "soy bean", and
to none otherwise. -/
theorem classify_popcorn (s : String) (hp : jsIncludes s "popcorn" = true) :
    classifyCommodity s ≠ some "corn" ∧
      classifyCommodity s =
        (if jsIncludes s "soybean" || jsIncludes s "soy bean" then some "soybeans"
         else none) := by
  have hc := corn_infix_of_popcorn hp
  unfold classifyCommodity
  rw [hp, hc]
  constructor
  · by_cases h : jsIncludes s "soybean" || jsIncludes s "soy bean" = true <;> simp [h]
  · simp

/-- Witness for C4 at a concrete popcorn row. -/
theorem classify_popcorn_witness :
    jsIncludes "popcorn soy bean bids" "popcorn" = true ∧
      classifyCommodity "popcorn soy bean bids" ≠ some "corn" :=
  ⟨by decide, (classify_popcorn "popcorn soy bean bids" (by decide)).1⟩

/-- C7: on the CSV line "Corn,,4.05,,-35,," the splitter yields the cells
["Corn", "", "4.05", "", "-35", "", ""], the classifier resolves corn, and
field assignment yields cash price 4.05 and basis value -35. -/
theorem csv_concrete_line :
    parseCsvRows "Corn,,4.05,,-35,," = [["Corn", "", "4.05", "", "-35", "", ""]] ∧
      classifyCommodity (jsToLower (jsJoinSpace ["Corn", "", "4.05", "", "-35", "", ""])) =
        some "corn" ∧
      assignFields (rowNumbers ["Corn", "", "4.05", "", "-35", "", ""]) =
        (some (mkRat 405 100), some (-35)) := by decide

/-- C9: a text containing "corn" (without "popcorn") and "soybean" resolves
to corn in the table/CSV classifier (else-if, corn branch first) but to
soybeans in the agricharts writeBidRow classifier (two unconditional ifs,
the soybean assignment overwriting the corn one). -/
theorem classifier_priority_differs (s : String) (hc : jsIncludes s "corn" = true)
    (hp : jsIncludes s "popcorn" = false) (hs : jsIncludes s "soybean" = true) :
    classifyCommodity s = some "corn" ∧ agriClassify s = some "soybeans" := by
  unfold classifyCommodity agriClassify
  rw [hc, hp, hs]
  simp

/-- Witness for C9 at a concrete text containing both keywords. -/
theorem classifier_priority_differs_witness :
    jsIncludes "corn soybean" "corn" = true ∧
      classifyCommodity "corn soybean" = some "corn" ∧
      agriClassify "corn soybean" = some "soybeans" :=
  ⟨by decide, classifier_priority_differs "corn soybean" (by decide) (by decide) (by decide)⟩

theorem foldl_preserves_mem {σ α : Type} (P : σ → Prop) (f : σ → α → σ) :
    ∀ (l : List α), (∀ s a, a ∈ l → P s → P (f s a)) → ∀ s, P s → P (l.foldl f s) := by
  intro l
  induction l with
  | nil => intro _ s hs; exact hs
  | cons a t ih =>
      intro hf s hs
      exact ih (fun s b hb => hf s b (List.mem_cons_of_mem _ hb)) _
        (hf s a (List.mem_cons_self _ _) hs)

theorem foldl_extends {σ α β : Type} (proj : σ → List β) (f : σ → α → σ)
    (hstep : ∀ s a, ∃ t, proj (f s a) = proj s ++ t) :
    ∀ (l : List α) (s : σ), ∃ t, proj (l.foldl f s) = proj s ++ t := by
  intro l
  induction l with
  | nil => intro s; exact ⟨[], (List.append_nil _).symm⟩
  | cons a h ih =>
      intro s
      obtain ⟨t1, h1⟩ := hstep s a
      obtain ⟨t2, h2⟩ := ih (f s a)
      exact ⟨t1 ++ t2, by rw [List.foldl_cons, h2, h1, List.append_assoc]⟩

theorem mem_of_extends {β : Type} {x : β} {l1 l2 : List β}
    (h : ∃ t, l2 = l1 ++ t) (hx : x ∈ l1) : x ∈ l2 := by
  obtain ⟨t, ht⟩ := h
  rw [ht]
  exact List.mem_append_left _ hx

theorem classifyCommodity_values {s c : String} (h : classifyCommodity s = some c) :
    c = "corn" ∨ c = "soybeans" := by
  unfold classifyCommodity at h
  split at h
  · exact Or.inl (Option.some.inj h).symm
  · split at h
    · exact Or.inr (Option.some.inj h).symm
    · cases h

theorem agriClassify_eq (s : String) :
    agriClassify s =
      (if jsIncludes s "soybean" then some "soybeans"
       else if jsIncludes s "corn" then some "corn" else none) := by
  unfold agriClassify
  by_cases h1 : jsIncludes s "soybean" = true <;> by_cases h2 : jsIncludes s "corn" = true <;>
    simp [h1, h2]

theorem agriClassify_values {s c : String} (h : agriClassify s = some c) :
    c = "corn" ∨ c = "soybeans" := by
  rw [agriClassify_eq] at h
  split at h
  · exact Or.inr (Option.some.inj h).symm
  · split at h
    · exact Or.inl (Option.some.inj h).symm
    · cases h

theorem tamaClassify_eq (s : String) :
    tamaClassify s =
      (if decide ("ZS".toList <+: s.toList) then some "soybeans"
       else if decide ("ZC".toList <+: s.toList) then some "corn" else none) := by
  unfold tamaClassify
  by_cases h1 : decide ("ZS".toList <+: s.toList) = true <;>
    by_cases h2 : decide ("ZC".toList <+: s.toList) = true <;> simp [h1, h2]

theorem tamaClassify_values {s c : String} (h : tamaClassify s = some c) :
    c = "corn" ∨ c = "soybeans" := by
  rw [tamaClassify_eq] at h
  split at h
  · exact Or.inr (Option.some.inj h).symm
  · split at h
    · exact Or.inl (Option.some.inj h).symm
    · cases h

theorem dedup_append {db : List Entry} {e : Entry} (h : DedupKeys db)
    (hfree : existsToday db e.date e.commodity e.elevator_name = false) :
    DedupKeys (db ++ [e]) := by
  unfold DedupKeys at h ⊢
  rw [List.pairwise_append]
  refine ⟨h, List.pairwise_singleton _ _, ?_⟩
  intro a ha b hb
  rw [List.mem_singleton] at hb
  subst hb
  unfold existsToday at hfree
  rw [List.any_eq_false] at hfree
  have := hfree a ha
  intro hk
  unfold entryKey at hk
  rw [Prod.mk.injEq, Prod.mk.injEq] at hk
  apply this
  simp [hk.1, hk.2.1, hk.2.2]

theorem csvProcessRow_insert_shape (env : RowEnv) (today : String) (st : RunState)
    (row : List String) :
    ((csvProcessRow env today st row).db = st.db ∧
      (csvProcessRow env today st row).inserted = st.inserted) ∨
    ∃ e, GoodInsert today e ∧
      existsToday st.db e.date e.commodity e.elevator_name = false ∧
      ((csvProcessRow env today st row).db = st.db ∨
        (csvProcessRow env today st row).db = st.db ++ [e]) ∧
      (csvProcessRow env today st row).inserted = st.inserted ++ [e] := by
  simp only [csvProcessRow]
  split
  · exact Or.inl ⟨rfl, rfl⟩
  next commodity hclass =>
    split
    · exact Or.inl ⟨rfl, rfl⟩
    · split
      · exact Or.inl ⟨rfl, rfl⟩
      next bv hb =>
        split
        · exact Or.inl ⟨rfl, rfl⟩
        next hex =>
          rw [Bool.not_eq_true] at hex
          refine Or.inr ⟨{ date := today, commodity := commodity,
                           elevator_name := ELEVATOR_NAME, basis_value := some bv,
                           cash_price := (assignFields (rowNumbers row)).1,
                           futures_month := env.futuresMatch (jsJoinSpace row),
                           notes := "Auto-imported from Google Sheet" },
            ⟨by simp, rfl, classifyCommodity_values hclass, by
              show jsStartsWith "Auto-imported from Google Sheet" "Auto-imported" = true
              decide⟩, hex, ?_, ?_⟩
          · split
            · exact Or.inl rfl
            · exact Or.inr rfl
          · split
            · rfl
            · rfl

theorem browserProcessRow_insert_shape (env : RowEnv) (today : String) (st : RunState)
    (row : List String) :
    ((browserProcessRow env today st row).db = st.db ∧
      (browserProcessRow env today st row).inserted = st.inserted) ∨
    ∃ e, GoodInsert today e ∧
      existsToday st.db e.date e.commodity e.elevator_name = false ∧
      ((browserProcessRow env today st row).db = st.db ∨
        (browserProcessRow env today st row).db = st.db ++ [e]) ∧
      (browserProcessRow env today st row).inserted = st.inserted ++ [e] := by
  simp only [browserProcessRow]
  split
  · exact Or.inl ⟨rfl, rfl⟩
  next commodity hclass =>
    split
    · exact Or.inl ⟨rfl, rfl⟩
    · split
      · exact Or.inl ⟨rfl, rfl⟩
      next bv hb =>
        split
        · exact Or.inl ⟨rfl, rfl⟩
        next hex =>
          rw [Bool.not_eq_true] at hex
          refine Or.inr ⟨{ date := today, commodity := commodity,
                           elevator_name := ELEVATOR_NAME, basis_value := some bv,
                           cash_price := (assignFields (rowNumbersB row)).1,
                           futures_month := env.futuresMatch (jsJoinSpace row),
                           notes := "Auto-imported" },
            ⟨by simp, rfl, classifyCommodity_values hclass, by
              show jsStartsWith "Auto-imported" "Auto-imported" = true
              decide⟩, hex, ?_, ?_⟩
          · split
            · exact Or.inl rfl
            · exact Or.inr rfl
          · split
            · rfl
            · rfl

theorem saveEntry_insert_shape (env : MultiEnv) (today : String) (st : MultiState)
    (name commodity : String) (basisValue : ℚ) (futuresMonth : String) :
    ((saveEntry env today st name commodity basisValue futuresMonth).db = st.db ∧
      (saveEntry env today st name commodity basisValue futuresMonth).inserted =
        st.inserted) ∨
    ∃ e, (commodity = "corn" ∨ commodity = "soybeans" → GoodInsert today e) ∧
      existsToday st.db e.date e.commodity e.elevator_name = false ∧
      ((saveEntry env today st name commodity basisValue futuresMonth).db = st.db ∨
        (saveEntry env today st name commodity basisValue futuresMonth).db =
          st.db ++ [e]) ∧
      (saveEntry env today st name commodity basisValue futuresMonth).inserted =
        st.inserted ++ [e] := by
  simp only [saveEntry]
  split
  · exact Or.inl ⟨rfl, rfl⟩
  next hex =>
    rw [Bool.not_eq_true] at hex
    refine Or.inr ⟨{ date := today, commodity := commodity, elevator_name := name,
                     basis_value := some basisValue, cash_price := none,
                     futures_month := if futuresMonth = "" then none else some futuresMonth,
                     notes := "Auto-imported" },
      fun hc => ⟨by simp, rfl, hc, by
        show jsStartsWith "Auto-imported" "Auto-imported" = true
        decide⟩, hex, ?_, ?_⟩
    · split
      · exact Or.inl rfl
      · exact Or.inr rfl
    · split
      · rfl
      · rfl

theorem csvProcessRow_dedup (env : RowEnv) (today : String) (st : RunState)
    (row : List String) (h : DedupKeys st.db) :
    DedupKeys (csvProcessRow env today st row).db := by
  rcases csvProcessRow_insert_shape env today st row with ⟨hdb, _⟩ | ⟨e, _, hfree, hdb, _⟩
  · rwa [hdb]
  · rcases hdb with hdb | hdb
    · rwa [hdb]
    · rw [hdb]
      exact dedup_append h hfree

theorem browserProcessRow_dedup (env : RowEnv) (today : String) (st : RunState)
    (row : List String) (h : DedupKeys st.db) :
    DedupKeys (browserProcessRow env today st row).db := by
  rcases browserProcessRow_insert_shape env today st row with ⟨hdb, _⟩ | ⟨e, _, hfree, hdb, _⟩
  · rwa [hdb]
  · rcases hdb with hdb | hdb
    · rwa [hdb]
    · rw [hdb]
      exact dedup_append h hfree

theorem saveEntry_dedup (env : MultiEnv) (today : String) (st : MultiState)
    (name commodity : String) (basisValue : ℚ) (futuresMonth : String)
    (h : DedupKeys st.db) :
    DedupKeys (saveEntry env today st name commodity basisValue futuresMonth).db := by
  rcases saveEntry_insert_shape env today st name commodity basisValue futuresMonth with
    ⟨hdb, _⟩ | ⟨e, _, hfree, hdb, _⟩
  · rwa [hdb]
  · rcases hdb with hdb | hdb
    · rwa [hdb]
    · rw [hdb]
      exact dedup_append h hfree

theorem processAgriLoc_dedup (env : MultiEnv) (today : String) (st : MultiState)
    (loc : Loc) (h : DedupKeys st.db) :
    DedupKeys (processAgriLoc env today st loc).db := by
  cases hfetch : env.fetchAgri loc.id with
  | httpErr s => simp only [processAgriLoc, hfetch]; exact h
  | thrown msg => simp only [processAgriLoc, hfetch]; exact h
  | ok html =>
      simp only [processAgriLoc, hfetch]
      split <;>
        · refine foldl_preserves_mem (fun s => DedupKeys s.db) _ _
            (fun s (b : String × ℚ × String) _ hs =>
              saveEntry_dedup env today s loc.name b.1 b.2.1 b.2.2 hs) _ ?_
          exact h

theorem processTama_dedup (env : MultiEnv) (today : String) (st : MultiState)
    (h : DedupKeys st.db) :
    DedupKeys (processTama env today st).db := by
  cases hfetch : env.fetchTama with
  | httpErr s => simp only [processTama, hfetch]; exact h
  | thrown msg => simp only [processTama, hfetch]; exact h
  | ok html =>
      simp only [processTama, hfetch]
      split <;>
        · refine foldl_preserves_mem (fun s => DedupKeys s.db) _ _
            (fun s (b : (Nat × String) × Loc × ℚ × String) _ hs =>
              saveEntry_dedup env today s b.2.1.name b.1.2 b.2.2.1 b.2.2.2 hs) _ ?_
          exact h

theorem csvProcessRow_skip_existing (env : RowEnv) (today : String) (st : RunState)
    (row : List String) (c : String) (bv : ℚ)
    (hclass : classifyCommodity (jsToLower (jsJoinSpace row)) = some c)
    (hn : ¬(rowNumbers row).length < 1)
    (hb : (assignFields (rowNumbers row)).2 = some bv)
    (hex : existsToday st.db today c ELEVATOR_NAME = true) :
    csvProcessRow env today st row =
      { st with skipped := st.skipped ++
          [(row, "Already saved for " ++ c ++ " on " ++ today)] } := by
  simp only [csvProcessRow, hclass, hb, if_neg hn, hex, if_true]

theorem saveEntry_skip_existing (env : MultiEnv) (today : String) (st : MultiState)
    (name c : String) (bv : ℚ) (fm : String)
    (hex : existsToday st.db today c name = true) :
    saveEntry env today st name c bv fm =
      { st with skipped := st.skipped ++
          [name ++ " " ++ c ++ " already saved for " ++ today] } := by
  simp only [saveEntry, hex, if_true]

theorem csvHandler_dedup (method today : String) (env : CsvEnv) (db0 : List Entry)
    (h : DedupKeys db0) : DedupKeys (csvHandler method today env db0).db := by
  unfold csvHandler
  split
  · exact h
  · cases hf : env.fetch with
    | thrown msg => simp only [hf]; exact h
    | httpErr s => simp only [hf]; exact h
    | ok csvText =>
        simp only [hf, csvProcessRows]
        refine foldl_preserves_mem (fun s => DedupKeys s.db) _ _
          (fun s (r : List String) _ hs => csvProcessRow_dedup _ today s r hs) _ ?_
        exact h

theorem browserHandler_dedup (method today : String) (env : BrowserEnv) (db0 : List Entry)
    (h : DedupKeys db0) : DedupKeys (browserHandler method today env db0).db := by
  unfold browserHandler
  split
  · exact h
  · cases hl : env.launch with
    | error m => simp only [hl]; exact h
    | ok u1 =>
      cases hnp : env.newPage with
      | error m => simp only [hl, hnp]; exact h
      | ok u2 =>
        cases hua : env.setUserAgent with
        | error m => simp only [hl, hnp, hua]; exact h
        | ok u3 =>
          cases hg : env.goto with
          | error m => simp only [hl, hnp, hua, hg]; exact h
          | ok u4 =>
            cases he : env.evaluate with
            | error m => simp only [hl, hnp, hua, hg, he]; exact h
            | ok extracted =>
                simp only [hl, hnp, hua, hg, he, browserProcessTables]
                refine foldl_preserves_mem (fun s => DedupKeys s.db) _ _
                  (fun (s : RunState) (table : List (List String)) _ hs =>
                    foldl_preserves_mem (fun (s : RunState) => DedupKeys s.db) _ _
                      (fun s (r : List String) _ hs2 =>
                        browserProcessRow_dedup _ today s r hs2) _ hs) _ ?_
                exact h

theorem multiHandler_dedup (method today : String) (env : MultiEnv) (db0 : List Entry)
    (h : DedupKeys db0) : DedupKeys (multiHandler method today env db0).db := by
  unfold multiHandler
  split
  · exact h
  · refine processTama_dedup env today _ ?_
    refine foldl_preserves_mem (fun s => DedupKeys s.db) _ _
      (fun s (l : Loc) _ hs => processAgriLoc_dedup env today s l hs) _ ?_
    exact h

/-- C2: before every insertion the handlers query the datastore for an
existing row matching (date, commodity, elevator_name); when one exists the
row is skipped with a reason string and no insert occurs, and every handler
preserves the at-most-one-entry-per-(date, commodity, elevator_name)
invariant of the datastore, so re-running a source on the same calendar day
with identical data cannot create duplicate rows. -/
theorem dedup_invariant (method today : String) (cenv : CsvEnv) (benv : BrowserEnv)
    (menv : MultiEnv) (db0 : List Entry) (h0 : DedupKeys db0) :
    DedupKeys (csvHandler method today cenv db0).db ∧
    DedupKeys (browserHandler method today benv db0).db ∧
    DedupKeys (multiHandler method today menv db0).db ∧
    (∀ (st : MultiState) (name c : String) (bv : ℚ) (fm : String),
      existsToday st.db today c name = true →
      saveEntry menv today st name c bv fm =
        { st with skipped := st.skipped ++
            [name ++ " " ++ c ++ " already saved for " ++ today] }) ∧
    (∀ (env : RowEnv) (st : RunState) (row : List String) (c : String) (bv : ℚ),
      classifyCommodity (jsToLower (jsJoinSpace row)) = some c →
      ¬(rowNumbers row).length < 1 →
      (assignFields (rowNumbers row)).2 = some bv →
      existsToday st.db today c ELEVATOR_NAME = true →
      csvProcessRow env today st row =
        { st with skipped := st.skipped ++
            [(row, "Already saved for " ++ c ++ " on " ++ today)] }) :=
  ⟨csvHandler_dedup method today cenv db0 h0,
   browserHandler_dedup method today benv db0 h0,
   multiHandler_dedup method today menv db0 h0,
   fun st name c bv fm hex => saveEntry_skip_existing menv today st name c bv fm hex,
   fun env st row c bv h1 h2 h3 h4 =>
     csvProcessRow_skip_existing env today st row c bv h1 h2 h3 h4⟩

/-- Witness for C2: the invariant holds concretely starting from the empty
datastore. -/
theorem dedup_invariant_witness :
    DedupKeys ([] : List Entry) ∧
      DedupKeys (multiHandler "GET" "2026-10-12" sampleMultiEnv []).db :=
  ⟨List.Pairwise.nil,
   (dedup_invariant "GET" "2026-10-12" trivialCsvEnv failingBrowserEnv sampleMultiEnv []
      List.Pairwise.nil).2.2.1⟩

theorem csvProcessRow_good (env : RowEnv) (today : String) (st : RunState)
    (row : List String) (h : ∀ e ∈ st.inserted, GoodInsert today e) :
    ∀ e ∈ (csvProcessRow env today st row).inserted, GoodInsert today e := by
  rcases csvProcessRow_insert_shape env today st row with ⟨_, hins⟩ | ⟨e, hg, _, _, hins⟩
  · rw [hins]; exact h
  · rw [hins]
    intro x hx
    rcases List.mem_append.mp hx with hx | hx
    · exact h x hx
    · rw [List.mem_singleton] at hx
      subst hx
      exact hg

theorem browserProcessRow_good (env : RowEnv) (today : String) (st : RunState)
    (row : List String) (h : ∀ e ∈ st.inserted, GoodInsert today e) :
    ∀ e ∈ (browserProcessRow env today st row).inserted, GoodInsert today e := by
  rcases browserProcessRow_insert_shape env today st row with ⟨_, hins⟩ | ⟨e, hg, _, _, hins⟩
  · rw [hins]; exact h
  · rw [hins]
    intro x hx
    rcases List.mem_append.mp hx with hx | hx
    · exact h x hx
    · rw [List.mem_singleton] at hx
      subst hx
      exact hg

theorem saveEntry_good (env : MultiEnv) (today : String) (st : MultiState)
    (name commodity : String) (bv : ℚ) (fm : String)
    (hc : commodity = "corn" ∨ commodity = "soybeans")
    (h : ∀ e ∈ st.inserted, GoodInsert today e) :
    ∀ e ∈ (saveEntry env today st name commodity bv fm).inserted, GoodInsert today e := by
  rcases saveEntry_insert_shape env today st name commodity bv fm with
    ⟨_, hins⟩ | ⟨e, hg, _, _, hins⟩
  · rw [hins]; exact h
  · rw [hins]
    intro x hx
    rcases List.mem_append.mp hx with hx | hx
    · exact h x hx
    · rw [List.mem_singleton] at hx
      subst hx
      exact hg hc

theorem csvProcessRow_db_extends (env : RowEnv) (today : String) (st : RunState)
    (row : List String) : ∃ t, (csvProcessRow env today st row).db = st.db ++ t := by
  rcases csvProcessRow_insert_shape env today st row with ⟨hdb, _⟩ | ⟨e, _, _, hdb | hdb, _⟩
  · exact ⟨[], by rw [hdb, List.append_nil]⟩
  · exact ⟨[], by rw [hdb, List.append_nil]⟩
  · exact ⟨[e], hdb⟩

theorem browserProcessRow_db_extends (env : RowEnv) (today : String) (st : RunState)
    (row : List String) : ∃ t, (browserProcessRow env today st row).db = st.db ++ t := by
  rcases browserProcessRow_insert_shape env today st row with
    ⟨hdb, _⟩ | ⟨e, _, _, hdb | hdb, _⟩
  · exact ⟨[], by rw [hdb, List.append_nil]⟩
  · exact ⟨[], by rw [hdb, List.append_nil]⟩
  · exact ⟨[e], hdb⟩

theorem saveEntry_db_extends (env : MultiEnv) (today : String) (st : MultiState)
    (name commodity : String) (bv : ℚ) (fm : String) :
    ∃ t, (saveEntry env today st name commodity bv fm).db = st.db ++ t := by
  rcases saveEntry_insert_shape env today st name commodity bv fm with
    ⟨hdb, _⟩ | ⟨e, _, _, hdb | hdb, _⟩
  · exact ⟨[], by rw [hdb, List.append_nil]⟩
  · exact ⟨[], by rw [hdb, List.append_nil]⟩
  · exact ⟨[e], hdb⟩

theorem collectAgriBids_commodities (loc : Loc) (ms : List (String × ℚ × String)) :
    ∀ b ∈ collectAgriBids loc ms, b.1 = "corn" ∨ b.1 = "soybeans" := by
  unfold collectAgriBids
  refine foldl_preserves_mem
    (fun (bids : List (String × ℚ × String)) => ∀ b ∈ bids, b.1 = "corn" ∨ b.1 = "soybeans")
    _ _ ?_ _ ?_
  · intro bids m _ hb
    cases hcl : agriClassify (jsToLower m.1) with
    | none => simp only [hcl]; exact hb
    | some c =>
        simp only [hcl]
        split
        · split
          · exact hb
          · intro b hmem
            rcases List.mem_append.mp hmem with hmem | hmem
            · exact hb b hmem
            · rw [List.mem_singleton] at hmem
              subst hmem
              exact agriClassify_values hcl
        · exact hb
  · intro b hb
    cases hb

theorem collectTamaBids_commodities (ms : List (ℚ × Nat × String)) :
    ∀ b ∈ collectTamaBids ms, b.1.2 = "corn" ∨ b.1.2 = "soybeans" := by
  unfold collectTamaBids
  refine foldl_preserves_mem
    (fun (bids : List ((Nat × String) × Loc × ℚ × String)) =>
      ∀ b ∈ bids, b.1.2 = "corn" ∨ b.1.2 = "soybeans")
    _ _ ?_ _ ?_
  · intro bids m _ hb
    cases hloc : TAMABENTON_LOCATIONS.find? (fun l => l.id == m.2.1) with
    | none => simp only [hloc]; exact hb
    | some loc =>
        simp only [hloc]
        cases hcl : tamaClassify m.2.2 with
        | none => simp only [hcl]; exact hb
        | some c =>
            simp only [hcl]
            split
            · split
              · exact hb
              · intro b hmem
                rcases List.mem_append.mp hmem with hmem | hmem
                · exact hb b hmem
                · rw [List.mem_singleton] at hmem
                  subst hmem
                  exact tamaClassify_values hcl
            · exact hb
  · intro b hb
    cases hb

theorem processAgriLoc_good (env : MultiEnv) (today : String) (st : MultiState)
    (loc : Loc) (h : ∀ e ∈ st.inserted, GoodInsert today e) :
    ∀ e ∈ (processAgriLoc env today st loc).inserted, GoodInsert today e := by
  cases hfetch : env.fetchAgri loc.id with
  | httpErr s => simp only [processAgriLoc, hfetch]; exact h
  | thrown m => simp only [processAgriLoc, hfetch]; exact h
  | ok html =>
      simp only [processAgriLoc, hfetch]
      have hbids := collectAgriBids_commodities loc (env.parseBidRows html)
      split <;>
        · refine foldl_preserves_mem
            (fun (s : MultiState) => ∀ e ∈ s.inserted, GoodInsert today e) _ _
            (fun s (b : String × ℚ × String) hb hs =>
              saveEntry_good env today s loc.name b.1 b.2.1 b.2.2 (hbids b hb) hs) _ ?_
          exact h

theorem processTama_good (env : MultiEnv) (today : String) (st : MultiState)
    (h : ∀ e ∈ st.inserted, GoodInsert today e) :
    ∀ e ∈ (processTama env today st).inserted, GoodInsert today e := by
  cases hfetch : env.fetchTama with
  | httpErr s => simp only [processTama, hfetch]; exact h
  | thrown m => simp only [processTama, hfetch]; exact h
  | ok html =>
      simp only [processTama, hfetch]
      have hbids := collectTamaBids_commodities (env.parseBidCells html)
      split <;>
        · refine foldl_preserves_mem
            (fun (s : MultiState) => ∀ e ∈ s.inserted, GoodInsert today e) _ _
            (fun s (b : (Nat × String) × Loc × ℚ × String) hb hs =>
              saveEntry_good env today s b.2.1.name b.1.2 b.2.2.1 b.2.2.2 (hbids b hb) hs)
            _ ?_
          exact h

theorem processAgriLoc_db_extends (env : MultiEnv) (today : String) (st : MultiState)
    (loc : Loc) : ∃ t, (processAgriLoc env today st loc).db = st.db ++ t := by
  cases hfetch : env.fetchAgri loc.id with
  | httpErr s =>
      simp only [processAgriLoc, hfetch]
      exact ⟨[], by rw [List.append_nil]⟩
  | thrown m =>
      simp only [processAgriLoc, hfetch]
      exact ⟨[], by rw [List.append_nil]⟩
  | ok html =>
      simp only [processAgriLoc, hfetch]
      obtain ⟨t, ht⟩ := foldl_extends (fun (s : MultiState) => s.db)
        (fun s (b : String × ℚ × String) => saveEntry env today s loc.name b.1 b.2.1 b.2.2)
        (fun s b => saveEntry_db_extends env today s loc.name b.1 b.2.1 b.2.2)
        (collectAgriBids loc (env.parseBidRows html))
        { st with log := st.log ++ ["Fetching " ++ loc.name ++ "..."] }
      refine ⟨t, ?_⟩
      split <;> exact ht

theorem processTama_db_extends (env : MultiEnv) (today : String) (st : MultiState) :
    ∃ t, (processTama env today st).db = st.db ++ t := by
  cases hfetch : env.fetchTama with
  | httpErr s =>
      simp only [processTama, hfetch]
      exact ⟨[], by rw [List.append_nil]⟩
  | thrown m =>
      simp only [processTama, hfetch]
      exact ⟨[], by rw [List.append_nil]⟩
  | ok html =>
      simp only [processTama, hfetch]
      obtain ⟨t, ht⟩ := foldl_extends (fun (s : MultiState) => s.db)
        (fun s (b : (Nat × String) × Loc × ℚ × String) =>
          saveEntry env today s b.2.1.name b.1.2 b.2.2.1 b.2.2.2)
        (fun s b => saveEntry_db_extends env today s b.2.1.name b.1.2 b.2.2.1 b.2.2.2)
        (collectTamaBids (env.parseBidCells html))
        { st with log := st.log ++ ["Fetching Tama-Benton (Vinton)..."] }
      refine ⟨t, ?_⟩
      split <;> exact ht

theorem multiRun_db_extends (env : MultiEnv) (today : String) (st : MultiState) :
    ∃ t, (processTama env today
      (AGRICHARTS_LOCATIONS.foldl (processAgriLoc env today) st)).db = st.db ++ t := by
  obtain ⟨t1, h1⟩ := foldl_extends (fun (s : MultiState) => s.db) (processAgriLoc env today)
    (fun s l => processAgriLoc_db_extends env today s l) AGRICHARTS_LOCATIONS st
  obtain ⟨t2, h2⟩ := processTama_db_extends env today
    (AGRICHARTS_LOCATIONS.foldl (processAgriLoc env today) st)
  exact ⟨t1 ++ t2, by rw [h2, h1, List.append_assoc]⟩

theorem csvProcessRows_good (env : RowEnv) (today : String) (st : RunState)
    (rows : List (List String)) (h : ∀ e ∈ st.inserted, GoodInsert today e) :
    ∀ e ∈ (csvProcessRows env today st rows).inserted, GoodInsert today e :=
  foldl_preserves_mem (fun (s : RunState) => ∀ e ∈ s.inserted, GoodInsert today e) _ _
    (fun s r _ hs => csvProcessRow_good env today s r hs) _ h

theorem csvProcessRows_db_extends (env : RowEnv) (today : String) (st : RunState)
    (rows : List (List String)) :
    ∃ t, (csvProcessRows env today st rows).db = st.db ++ t :=
  foldl_extends (fun (s : RunState) => s.db) _
    (fun s r => csvProcessRow_db_extends env today s r) rows st

theorem browserProcessTables_good (env : RowEnv) (today : String) (st : RunState)
    (tables : List (List (List String))) (h : ∀ e ∈ st.inserted, GoodInsert today e) :
    ∀ e ∈ (browserProcessTables env today st tables).inserted, GoodInsert today e :=
  foldl_preserves_mem (fun (s : RunState) => ∀ e ∈ s.inserted, GoodInsert today e) _ _
    (fun s (table : List (List String)) _ hs =>
      foldl_preserves_mem (fun (s : RunState) => ∀ e ∈ s.inserted, GoodInsert today e) _ _
        (fun s r _ hs2 => browserProcessRow_good env today s r hs2) _ hs) _ h

theorem browserProcessTables_db_extends (env : RowEnv) (today : String) (st : RunState)
    (tables : List (List (List String))) :
    ∃ t, (browserProcessTables env today st tables).db = st.db ++ t :=
  foldl_extends (fun (s : RunState) => s.db) _
    (fun s (table : List (List String)) =>
      foldl_extends (fun (s : RunState) => s.db) _
        (fun s r => browserProcessRow_db_extends env today s r) table s) tables st

theorem multiRun_good (env : MultiEnv) (today : String) (st : MultiState)
    (h : ∀ e ∈ st.inserted, GoodInsert today e) :
    ∀ e ∈ (processTama env today
      (AGRICHARTS_LOCATIONS.foldl (processAgriLoc env today) st)).inserted,
      GoodInsert today e :=
  processTama_good env today _
    (foldl_preserves_mem (fun (s : MultiState) => ∀ e ∈ s.inserted, GoodInsert today e) _ _
      (fun s (l : Loc) _ hs => processAgriLoc_good env today s l hs) _ h)

/-- C10: every record passed to the datastore insert operation by any
handler has a non-null basis value, the handler's current-day date as its
date, commodity corn or soybeans, and notes beginning with 'Auto-imported';
and every handler only appends to the datastore (its final contents are the
initial rows, in place, followed by newly inserted records), so no
operation ever updates or deletes an existing record. -/
theorem insert_records_invariant (method today : String) (cenv : CsvEnv)
    (benv : BrowserEnv) (menv : MultiEnv) (db0 : List Entry) :
    ((∀ e ∈ (csvHandler method today cenv db0).inserted, GoodInsert today e) ∧
      ∃ t, (csvHandler method today cenv db0).db = db0 ++ t) ∧
    ((∀ e ∈ (browserHandler method today benv db0).inserted, GoodInsert today e) ∧
      ∃ t, (browserHandler method today benv db0).db = db0 ++ t) ∧
    ((∀ e ∈ (multiHandler method today menv db0).inserted, GoodInsert today e) ∧
      ∃ t, (multiHandler method today menv db0).db = db0 ++ t) := by
  refine ⟨⟨?_, ?_⟩, ⟨?_, ?_⟩, ⟨?_, ?_⟩⟩
  · unfold csvHandler
    split
    · exact fun e he => absurd he (List.not_mem_nil e)
    · cases hf : cenv.fetch with
      | thrown m => simp only [hf]; exact fun e he => absurd he (List.not_mem_nil e)
      | httpErr s => simp only [hf]; exact fun e he => absurd he (List.not_mem_nil e)
      | ok csvText =>
          simp only [hf]
          exact csvProcessRows_good _ today _ _
            (fun e he => absurd he (List.not_mem_nil e))
  · unfold csvHandler
    split
    · exact ⟨[], (List.append_nil _).symm⟩
    · cases hf : cenv.fetch with
      | thrown m => simp only [hf]; exact ⟨[], (List.append_nil _).symm⟩
      | httpErr s => simp only [hf]; exact ⟨[], (List.append_nil _).symm⟩
      | ok csvText =>
          simp only [hf]
          exact csvProcessRows_db_extends _ today _ _
  · unfold browserHandler
    split
    · exact fun e he => absurd he (List.not_mem_nil e)
    · cases hl : benv.launch with
      | error m => simp only [hl]; exact fun e he => absurd he (List.not_mem_nil e)
      | ok u1 =>
        cases hnp : benv.newPage with
        | error m => simp only [hl, hnp]; exact fun e he => absurd he (List.not_mem_nil e)
        | ok u2 =>
          cases hua : benv.setUserAgent with
          | error m =>
              simp only [hl, hnp, hua]
              exact fun e he => absurd he (List.not_mem_nil e)
          | ok u3 =>
            cases hg : benv.goto with
            | error m =>
                simp only [hl, hnp, hua, hg]
                exact fun e he => absurd he (List.not_mem_nil e)
            | ok u4 =>
              cases he : benv.evaluate with
              | error m =>
                  simp only [hl, hnp, hua, hg, he]
                  exact fun e he => absurd he (List.not_mem_nil e)
              | ok extracted =>
                  simp only [hl, hnp, hua, hg, he]
                  exact browserProcessTables_good _ today _ _
                    (fun e he => absurd he (List.not_mem_nil e))
  · unfold browserHandler
    split
    · exact ⟨[], (List.append_nil _).symm⟩
    · cases hl : benv.launch with
      | error m => simp only [hl]; exact ⟨[], (List.append_nil _).symm⟩
      | ok u1 =>
        cases hnp : benv.newPage with
        | error m => simp only [hl, hnp]; exact ⟨[], (List.append_nil _).symm⟩
        | ok u2 =>
          cases hua : benv.setUserAgent with
          | error m => simp only [hl, hnp, hua]; exact ⟨[], (List.append_nil _).symm⟩
          | ok u3 =>
            cases hg : benv.goto with
            | error m => simp only [hl, hnp, hua, hg]; exact ⟨[], (List.append_nil _).symm⟩
            | ok u4 =>
              cases he : benv.evaluate with
              | error m =>
                  simp only [hl, hnp, hua, hg, he]
                  exact ⟨[], (List.append_nil _).symm⟩
              | ok extracted =>
                  simp only [hl, hnp, hua, hg, he]
                  exact browserProcessTables_db_extends _ today _ _
  · unfold multiHandler
    split
    · exact fun e he => absurd he (List.not_mem_nil e)
    · exact multiRun_good menv today _ (fun e he => absurd he (List.not_mem_nil e))
  · unfold multiHandler
    split
    · exact ⟨[], (List.append_nil _).symm⟩
    · exact multiRun_db_extends menv today _

/-- Witness for C10: a concretely inserted record satisfies the invariant. -/
theorem insert_records_invariant_witness :
    entrySample ∈ (multiHandler "GET" "2026-10-12" sampleMultiEnv []).inserted ∧
      GoodInsert "2026-10-12" entrySample :=
  ⟨by decide,
   (insert_records_invariant "GET" "2026-10-12" trivialCsvEnv failingBrowserEnv
      sampleMultiEnv []).2.2.1 entrySample (by decide)⟩

/-- C8: for any HTTP method other than GET each handler returns status 405
with body { error: 'Method not allowed' }, leaves the datastore untouched,
passes no record to insert, and produces a response independent of its
fetch / parse / datastore environment, so no fetching, parsing, or
datastore access takes place. -/
theorem method_not_allowed (method today : String) (h : method ≠ "GET")
    (cenv : CsvEnv) (benv : BrowserEnv) (menv : MultiEnv) (db0 : List Entry) :
    csvHandler method today cenv db0 =
      { status := 405, body := .methodErr "Method not allowed", log := [],
        db := db0, inserted := [] } ∧
    browserHandler method today benv db0 =
      { status := 405, body := .methodErr "Method not allowed", log := [],
        db := db0, inserted := [], opened := false, closed := false } ∧
    multiHandler method today menv db0 =
      { status := 405, bodyError := some "Method not allowed", message := none,
        log := [], saved := [], skipped := [], errors := [], db := db0,
        inserted := [] } := by
  unfold csvHandler browserHandler multiHandler
  rw [if_pos h, if_pos h, if_pos h]
  exact ⟨rfl, rfl, rfl⟩

/-- Witness for C8 at method POST. -/
theorem method_not_allowed_witness :
    ("POST" : String) ≠ "GET" ∧
      (csvHandler "POST" "2026-10-12" trivialCsvEnv []).status = 405 := by
  refine ⟨by decide, ?_⟩
  rw [(method_not_allowed "POST" "2026-10-12" (by decide) trivialCsvEnv
    failingBrowserEnv sampleMultiEnv []).1]

/-- C3 counterexample: the row ["Corn"] is classified as corn and yields no
basis value, and vacuously every extracted number lies in [2, 20] (there is
none), yet the handler does not record it in the skipped list: the
`numbers.length < 1` guard drops it silently without any reason string. -/
theorem no_basis_skip_counterexample :
    classifyCommodity (jsToLower (jsJoinSpace ["Corn"])) = some "corn" ∧
      rowNumbers ["Corn"] = [] ∧
      csvProcessRow trivialRowEnv "2026-10-12" initialRunState ["Corn"] =
        initialRunState := by
  decide

/-- C3 (amended): in both row pipelines -- the CSV handler's row loop and
the browser handler's table-row loop -- every row classified as corn or
soybeans that yields at least one extracted number but no basis value
(each extracted number is in [2,20], has absolute value at most 0.5, or
lies outside [-200,200]) is appended to the skipped list with reason
"Could not identify basis value", and processing continues with the
remaining rows from that updated state, never aborting the run; a
commodity row with no numeric token at all is instead dropped silently. -/
theorem no_basis_value_skipped (env : RowEnv) (today : String) (st : RunState)
    (row : List String) (rest : List (List String)) (c : String)
    (hc : classifyCommodity (jsToLower (jsJoinSpace row)) = some c) :
    (¬(rowNumbers row).length < 1 → (assignFields (rowNumbers row)).2 = none →
      csvProcessRows env today st (row :: rest) =
        csvProcessRows env today
          { st with skipped := st.skipped ++ [(row, "Could not identify basis value")] }
          rest) ∧
    (¬(rowNumbersB row).length < 1 → (assignFields (rowNumbersB row)).2 = none →
      (row :: rest).foldl (browserProcessRow env today) st =
        rest.foldl (browserProcessRow env today)
          { st with skipped := st.skipped ++
              [(row, "Could not identify basis value")] }) := by
  constructor
  · intro hn hb
    unfold csvProcessRows
    rw [List.foldl_cons]
    congr 1
    simp only [csvProcessRow, hc, if_neg hn, hb]
  · intro hn hb
    rw [List.foldl_cons]
    congr 1
    simp only [browserProcessRow, hc, if_neg hn, hb]

/-- Witness for C3 at the concrete row ["Corn", "3"]: 3 is in the
cash-price range, so neither pipeline finds a basis value and both record
the skip entry. -/
theorem no_basis_value_skipped_witness :
    classifyCommodity (jsToLower (jsJoinSpace ["Corn", "3"])) = some "corn" ∧
      ¬(rowNumbers ["Corn", "3"]).length < 1 ∧
      ¬(rowNumbersB ["Corn", "3"]).length < 1 ∧
      (csvProcessRows trivialRowEnv "2026-10-12" initialRunState [["Corn", "3"]] =
        csvProcessRows trivialRowEnv "2026-10-12"
          { initialRunState with skipped := initialRunState.skipped ++
              [(["Corn", "3"], "Could not identify basis value")] } []) ∧
      [["Corn", "3"]].foldl (browserProcessRow trivialRowEnv "2026-10-12") initialRunState =
        ([] : List (List String)).foldl (browserProcessRow trivialRowEnv "2026-10-12")
          { initialRunState with skipped := initialRunState.skipped ++
              [(["Corn", "3"], "Could not identify basis value")] } :=
  ⟨by decide, by decide, by decide,
   (no_basis_value_skipped trivialRowEnv "2026-10-12" initialRunState ["Corn", "3"] []
     "corn" (by decide)).1 (by decide) (by decide),
   (no_basis_value_skipped trivialRowEnv "2026-10-12" initialRunState ["Corn", "3"] []
     "corn" (by decide)).2 (by decide) (by decide)⟩

theorem saveEntry_errors_extends (env : MultiEnv) (today : String) (st : MultiState)
    (name commodity : String) (bv : ℚ) (fm : String) :
    ∃ t, (saveEntry env today st name commodity bv fm).errors = st.errors ++ t := by
  simp only [saveEntry]
  split
  · exact ⟨[], (List.append_nil _).symm⟩
  · split
    · exact ⟨_, rfl⟩
    · exact ⟨[], (List.append_nil _).symm⟩

theorem saveEntry_log_extends (env : MultiEnv) (today : String) (st : MultiState)
    (name commodity : String) (bv : ℚ) (fm : String) :
    ∃ t, (saveEntry env today st name commodity bv fm).log = st.log ++ t := by
  simp only [saveEntry]
  split
  · exact ⟨[], (List.append_nil _).symm⟩
  · split
    · exact ⟨[], (List.append_nil _).symm⟩
    · exact ⟨_, rfl⟩

theorem processAgriLoc_errors_extends (env : MultiEnv) (today : String) (st : MultiState)
    (loc : Loc) : ∃ t, (processAgriLoc env today st loc).errors = st.errors ++ t := by
  cases hfetch : env.fetchAgri loc.id with
  | httpErr s => simp only [processAgriLoc, hfetch]; exact ⟨_, rfl⟩
  | thrown m => simp only [processAgriLoc, hfetch]; exact ⟨_, rfl⟩
  | ok html =>
      simp only [processAgriLoc, hfetch]
      obtain ⟨t, ht⟩ := foldl_extends (fun (s : MultiState) => s.errors)
        (fun s (b : String × ℚ × String) => saveEntry env today s loc.name b.1 b.2.1 b.2.2)
        (fun s b => saveEntry_errors_extends env today s loc.name b.1 b.2.1 b.2.2)
        (collectAgriBids loc (env.parseBidRows html))
        { st with log := st.log ++ ["Fetching " ++ loc.name ++ "..."] }
      refine ⟨t, ?_⟩
      split <;> exact ht

theorem processAgriLoc_log_shape (env : MultiEnv) (today : String) (st : MultiState)
    (loc : Loc) :
    ∃ t, (processAgriLoc env today st loc).log =
      st.log ++ ["Fetching " ++ loc.name ++ "..."] ++ t := by
  cases hfetch : env.fetchAgri loc.id with
  | httpErr s =>
      simp only [processAgriLoc, hfetch]
      exact ⟨[], by simp⟩
  | thrown m =>
      simp only [processAgriLoc, hfetch]
      exact ⟨[], by simp⟩
  | ok html =>
      simp only [processAgriLoc, hfetch]
      obtain ⟨t, ht⟩ := foldl_extends (fun (s : MultiState) => s.log)
        (fun s (b : String × ℚ × String) => saveEntry env today s loc.name b.1 b.2.1 b.2.2)
        (fun s b => saveEntry_log_extends env today s loc.name b.1 b.2.1 b.2.2)
        (collectAgriBids loc (env.parseBidRows html))
        { st with log := st.log ++ ["Fetching " ++ loc.name ++ "..."] }
      split
      · exact ⟨t ++ ["  ⚠ No matching bids found"], by
          simp [ht, List.append_assoc]⟩
      · exact ⟨t, by simp [ht, List.append_assoc]⟩

theorem processAgriLoc_log_extends (env : MultiEnv) (today : String) (st : MultiState)
    (loc : Loc) : ∃ t, (processAgriLoc env today st loc).log = st.log ++ t := by
  obtain ⟨t, ht⟩ := processAgriLoc_log_shape env today st loc
  exact ⟨["Fetching " ++ loc.name ++ "..."] ++ t, by rw [ht, List.append_assoc]⟩

theorem processTama_errors_extends (env : MultiEnv) (today : String) (st : MultiState) :
    ∃ t, (processTama env today st).errors = st.errors ++ t := by
  cases hfetch : env.fetchTama with
  | httpErr s => simp only [processTama, hfetch]; exact ⟨_, rfl⟩
  | thrown m => simp only [processTama, hfetch]; exact ⟨_, rfl⟩
  | ok html =>
      simp only [processTama, hfetch]
      obtain ⟨t, ht⟩ := foldl_extends (fun (s : MultiState) => s.errors)
        (fun s (b : (Nat × String) × Loc × ℚ × String) =>
          saveEntry env today s b.2.1.name b.1.2 b.2.2.1 b.2.2.2)
        (fun s b => saveEntry_errors_extends env today s b.2.1.name b.1.2 b.2.2.1 b.2.2.2)
        (collectTamaBids (env.parseBidCells html))
        { st with log := st.log ++ ["Fetching Tama-Benton (Vinton)..."] }
      refine ⟨t, ?_⟩
      split <;> exact ht

theorem processAgriLoc_httpErr_mem (env : MultiEnv) (today : String) (st : MultiState)
    (loc : Loc) (s : Nat) (hf : env.fetchAgri loc.id = .httpErr s) :
    (loc.name ++ ": HTTP " ++ natStr s) ∈ (processAgriLoc env today st loc).errors := by
  simp only [processAgriLoc, hf]
  exact List.mem_append_right _ (List.mem_singleton.mpr rfl)

theorem processTama_httpErr_mem (env : MultiEnv) (today : String) (st : MultiState)
    (s : Nat) (hf : env.fetchTama = .httpErr s) :
    ("Tama-Benton: HTTP " ++ natStr s) ∈ (processTama env today st).errors := by
  simp only [processTama, hf]
  exact List.mem_append_right _ (List.mem_singleton.mpr rfl)

theorem agri_fold_errors_mem (env : MultiEnv) (today : String) :
    ∀ (locs : List Loc) (st : MultiState) (loc : Loc), loc ∈ locs →
      ∀ s : Nat, env.fetchAgri loc.id = .httpErr s →
      (loc.name ++ ": HTTP " ++ natStr s) ∈
        (locs.foldl (processAgriLoc env today) st).errors := by
  intro locs
  induction locs with
  | nil => intro st loc h; cases h
  | cons l t ih =>
      intro st loc h s hf
      rw [List.foldl_cons]
      rcases List.mem_cons.mp h with rfl | h
      · refine mem_of_extends (foldl_extends (fun (s : MultiState) => s.errors) _
          (fun s a => processAgriLoc_errors_extends env today s a) t _) ?_
        exact processAgriLoc_httpErr_mem env today st loc s hf
      · exact ih _ loc h s hf

theorem agri_fold_log_mem (env : MultiEnv) (today : String) :
    ∀ (locs : List Loc) (st : MultiState) (loc : Loc), loc ∈ locs →
      ("Fetching " ++ loc.name ++ "...") ∈
        (locs.foldl (processAgriLoc env today) st).log := by
  intro locs
  induction locs with
  | nil => intro st loc h; cases h
  | cons l t ih =>
      intro st loc h
      rw [List.foldl_cons]
      rcases List.mem_cons.mp h with rfl | h
      · refine mem_of_extends (foldl_extends (fun (s : MultiState) => s.log) _
          (fun s a => processAgriLoc_log_extends env today s a) t _) ?_
        obtain ⟨t2, ht2⟩ := processAgriLoc_log_shape env today st loc
        rw [ht2]
        exact List.mem_append_left _ (List.mem_append_right _ (List.mem_singleton.mpr rfl))
      · exact ih _ loc h

theorem processTama_log_extends (env : MultiEnv) (today : String) (st : MultiState) :
    ∃ t, (processTama env today st).log = st.log ++ t := by
  cases hfetch : env.fetchTama with
  | httpErr s => simp only [processTama, hfetch]; exact ⟨_, rfl⟩
  | thrown m => simp only [processTama, hfetch]; exact ⟨_, rfl⟩
  | ok html =>
      simp only [processTama, hfetch]
      obtain ⟨t, ht⟩ := foldl_extends (fun (s : MultiState) => s.log)
        (fun s (b : (Nat × String) × Loc × ℚ × String) =>
          saveEntry env today s b.2.1.name b.1.2 b.2.2.1 b.2.2.2)
        (fun s b => saveEntry_log_extends env today s b.2.1.name b.1.2 b.2.2.1 b.2.2.2)
        (collectTamaBids (env.parseBidCells html))
        { st with log := st.log ++ ["Fetching Tama-Benton (Vinton)..."] }
      split
      · exact ⟨["Fetching Tama-Benton (Vinton)..."] ++ t ++
          ["  ⚠ No matching Tama-Benton bids found"], by
          simp [ht, List.append_assoc]⟩
      · exact ⟨["Fetching Tama-Benton (Vinton)..."] ++ t, by
          simp [ht, List.append_assoc]⟩

/-- C5: in the multi-source regex-HTML handler, every per-source fetch that
returns a non-2xx response appends "<name>: HTTP <status>" to the errors
list; the handler is a total function here (no exception escapes it),
processing continues with the remaining sources -- every agricharts
location is still logged as fetched and the Tama-Benton fetch outcome is
still examined -- and the handler returns status 200 regardless. -/
theorem multi_partial_failure (today : String) (env : MultiEnv) (db0 : List Entry) :
    (multiHandler "GET" today env db0).status = 200 ∧
    (∀ loc ∈ AGRICHARTS_LOCATIONS,
      ("Fetching " ++ loc.name ++ "...") ∈ (multiHandler "GET" today env db0).log) ∧
    (∀ loc ∈ AGRICHARTS_LOCATIONS, ∀ s : Nat, env.fetchAgri loc.id = .httpErr s →
      (loc.name ++ ": HTTP " ++ natStr s) ∈ (multiHandler "GET" today env db0).errors) ∧
    (∀ s : Nat, env.fetchTama = .httpErr s →
      ("Tama-Benton: HTTP " ++ natStr s) ∈ (multiHandler "GET" today env db0).errors) := by
  have hg : ¬("GET" : String) ≠ "GET" := fun hne => hne rfl
  unfold multiHandler
  rw [if_neg hg]
  refine ⟨rfl, ?_, ?_, ?_⟩
  · intro loc hloc
    refine mem_of_extends (processTama_log_extends env today _) ?_
    exact agri_fold_log_mem env today AGRICHARTS_LOCATIONS _ loc hloc
  · intro loc hloc s hf
    refine mem_of_extends (processTama_errors_extends env today _) ?_
    exact agri_fold_errors_mem env today AGRICHARTS_LOCATIONS _ loc hloc s hf
  · intro s hf
    exact processTama_httpErr_mem env today _ s hf

/-- Witness for C5 with every fetch returning a non-2xx status. -/
theorem multi_partial_failure_witness :
    failingMultiEnv.fetchAgri 66521 = .httpErr 403 ∧
      failingMultiEnv.fetchTama = .httpErr 500 ∧
      (multiHandler "GET" "2026-10-12" failingMultiEnv []).status = 200 ∧
      ("ADM Cedar Rapids: HTTP " ++ natStr 403) ∈
        (multiHandler "GET" "2026-10-12" failingMultiEnv []).errors ∧
      ("Tama-Benton: HTTP " ++ natStr 500) ∈
        (multiHandler "GET" "2026-10-12" failingMultiEnv []).errors :=
  ⟨rfl, rfl, (multi_partial_failure "2026-10-12" failingMultiEnv []).1,
   (multi_partial_failure "2026-10-12" failingMultiEnv []).2.2.1
     ⟨"ADM Cedar Rapids", 66521, ["corn"]⟩ (by decide) 403 rfl,
   (multi_partial_failure "2026-10-12" failingMultiEnv []).2.2.2 500 rfl⟩

/-- C6: the browser handle is closed on every exit path on which it was
opened; every exception thrown inside the try block (modelled by
`firstThrow`) is caught: the handler closes the browser when one was
opened, appends 'Fatal error: ' plus the message to the log, and returns
status 500 with body { success: false, error, log }; and when nothing
throws the handler returns 200 with the browser closed. -/
theorem browser_catch_all (today : String) (env : BrowserEnv) (db0 : List Entry) :
    (∀ method : String, (browserHandler method today env db0).opened = true →
      (browserHandler method today env db0).closed = true) ∧
    (∀ msg : String, firstThrow env = some msg →
      (browserHandler "GET" today env db0).status = 500 ∧
      (browserHandler "GET" today env db0).body = .failure msg ∧
      ∃ pre, (browserHandler "GET" today env db0).log = pre ++ ["Fatal error: " ++ msg]) ∧
    (firstThrow env = none →
      (browserHandler "GET" today env db0).status = 200 ∧
      (browserHandler "GET" today env db0).opened = true ∧
      (browserHandler "GET" today env db0).closed = true) := by
  have hg : ¬("GET" : String) ≠ "GET" := fun hne => hne rfl
  refine ⟨?_, ?_, ?_⟩
  · intro method
    unfold browserHandler
    split
    · exact fun hop => hop
    · cases hl : env.launch with
      | error m => exact fun hop => hop
      | ok u1 =>
        cases hnp : env.newPage with
        | error m => exact fun hop => hop
        | ok u2 =>
          cases hua : env.setUserAgent with
          | error m => exact fun hop => hop
          | ok u3 =>
            cases hgo : env.goto with
            | error m => exact fun hop => hop
            | ok u4 =>
              cases he : env.evaluate with
              | error m => exact fun hop => hop
              | ok ex => exact fun _ => rfl
  · intro msg hmsg
    cases hl : env.launch with
    | error m =>
        have hft : firstThrow env = some m := by unfold firstThrow; rw [hl]
        rw [hft] at hmsg
        obtain rfl := Option.some.inj hmsg
        simp only [browserHandler, if_neg hg, hl, browserCatch]
        exact ⟨by trivial, by trivial, ⟨_, rfl⟩⟩
    | ok u1 =>
      cases hnp : env.newPage with
      | error m =>
          have hft : firstThrow env = some m := by unfold firstThrow; rw [hl, hnp]
          rw [hft] at hmsg
          obtain rfl := Option.some.inj hmsg
          simp only [browserHandler, if_neg hg, hl, hnp, browserCatch]
          exact ⟨by trivial, by trivial, ⟨_, rfl⟩⟩
      | ok u2 =>
        cases hua : env.setUserAgent with
        | error m =>
            have hft : firstThrow env = some m := by unfold firstThrow; rw [hl, hnp, hua]
            rw [hft] at hmsg
            obtain rfl := Option.some.inj hmsg
            simp only [browserHandler, if_neg hg, hl, hnp, hua, browserCatch]
            exact ⟨by trivial, by trivial, ⟨_, rfl⟩⟩
        | ok u3 =>
          cases hgo : env.goto with
          | error m =>
              have hft : firstThrow env = some m := by
                unfold firstThrow
                rw [hl, hnp, hua, hgo]
              rw [hft] at hmsg
              obtain rfl := Option.some.inj hmsg
              simp only [browserHandler, if_neg hg, hl, hnp, hua, hgo, browserCatch]
              exact ⟨by trivial, by trivial, ⟨_, rfl⟩⟩
          | ok u4 =>
            cases he : env.evaluate with
            | error m =>
                have hft : firstThrow env = some m := by
                  unfold firstThrow
                  rw [hl, hnp, hua, hgo, he]
                rw [hft] at hmsg
                obtain rfl := Option.some.inj hmsg
                simp only [browserHandler, if_neg hg, hl, hnp, hua, hgo, he, browserCatch]
                refine ⟨by trivial, by trivial, ?_⟩
                split <;> exact ⟨_, rfl⟩
            | ok ex =>
                have hft : firstThrow env = none := by
                  unfold firstThrow
                  rw [hl, hnp, hua, hgo, he]
                rw [hft] at hmsg
                cases hmsg
  · intro hnone
    cases hl : env.launch with
    | error m =>
        have hft : firstThrow env = some m := by unfold firstThrow; rw [hl]
        rw [hft] at hnone
        cases hnone
    | ok u1 =>
      cases hnp : env.newPage with
      | error m =>
          have hft : firstThrow env = some m := by unfold firstThrow; rw [hl, hnp]
          rw [hft] at hnone
          cases hnone
      | ok u2 =>
        cases hua : env.setUserAgent with
        | error m =>
            have hft : firstThrow env = some m := by unfold firstThrow; rw [hl, hnp, hua]
            rw [hft] at hnone
            cases hnone
        | ok u3 =>
          cases hgo : env.goto with
          | error m =>
              have hft : firstThrow env = some m := by
                unfold firstThrow
                rw [hl, hnp, hua, hgo]
              rw [hft] at hnone
              cases hnone
          | ok u4 =>
            cases he : env.evaluate with
            | error m =>
                have hft : firstThrow env = some m := by
                  unfold firstThrow
                  rw [hl, hnp, hua, hgo, he]
                rw [hft] at hnone
                cases hnone
            | ok ex =>
                simp only [browserHandler, if_neg hg, hl, hnp, hua, hgo, he]
                exact ⟨by trivial, by trivial, by trivial⟩

/-- Witness for C6 at an environment whose page navigation throws. -/
theorem browser_catch_all_witness :
    firstThrow failingBrowserEnv = some "Navigation timeout" ∧
      (browserHandler "GET" "2026-10-12" failingBrowserEnv []).status = 500 ∧
      (browserHandler "GET" "2026-10-12" failingBrowserEnv []).closed = true :=
  ⟨rfl,
   ((browser_catch_all "2026-10-12" failingBrowserEnv []).2.1 "Navigation timeout" rfl).1,
   (browser_catch_all "2026-10-12" failingBrowserEnv []).1 "GET" rfl⟩
